import Mathlib

/-!
# Verification of the TCP profiling server (`src/server.py`)

Shallow embedding of the request-processing core of `TCPServer`:
the dispatcher `process_request`, the workload handlers
(`handle_echo`, `handle_compute`, `handle_hash`, `handle_slow_operation`),
the naive `fibonacci`, and the per-connection loop `handle_client`.

Modelling conventions:
* JSON values decoded by Python's `json.loads` are modelled by `JVal`.
  JSON/Python floats are modelled as exact rationals (`jfloat`); no claim
  depends on floating-point rounding.  The standard-library decoder itself
  is external to the repository, so it appears as a parameter
  `jsonLoads : String → Option JVal`, where `none` models a raised
  `json.JSONDecodeError`.
* `hashlib.sha256(·).hexdigest()` is likewise external and appears as a
  parameter `sha256hex : String → String`.
* `time.time()` is modelled by an explicit timestamp parameter `now : Nat`
  (the wall-clock value is irrelevant to every property proved here).
* Python exceptions escaping an expression are modelled by
  `Except PyError`; `process_request`'s `except json.JSONDecodeError`
  clause corresponds to the `none` branch of the decode parameter, and any
  `PyError` propagates past `process_request` exactly as the uncaught
  `AttributeError` / `TypeError` / `ValueError` do in the source.
* The response dictionaries built by the handlers (and serialized with
  `json.dumps`) are modelled structurally by `Response`; note that the
  `error` response carries no timestamp field, exactly like the source's
  `{'error': 'Unknown request type'}`.
-/

/-- A decoded JSON value (the result of Python's `json.loads`), also used
for the dynamic Python values the handlers manipulate.  Floats are modelled
as exact rationals. -/
inductive JVal where
  | jnull : JVal
  | jbool : Bool → JVal
  | jint : Int → JVal
  | jfloat : ℚ → JVal
  | jstr : String → JVal
  | jarr : List JVal → JVal
  | jobj : List (String × JVal) → JVal
deriving Repr

/-- The Python exceptions that can escape the handlers in `server.py`:
`AttributeError` (calling `.get`/`.encode` on a non-dict/non-str),
`TypeError` (ordering or `range`/`sleep`/slicing on an unsupported type)
and `ValueError` (`time.sleep` on a negative delay). -/
inductive PyError where
  | attributeError : PyError
  | typeError : PyError
  | valueError : PyError
deriving Repr, DecidableEq

/-- The response dictionaries built by `TCPServer`'s handlers, one
constructor per shape handed to `json.dumps`.  The `error` constructor has
no timestamp field, mirroring `{'error': 'Unknown request type'}`. -/
inductive Response where
  | echo : String → Nat → Response
  | compute : JVal → JVal → Nat → Response
  | hash : JVal → JVal → Nat → Response
  | slow : String → Nat → Response
  | error : String → Response
deriving Repr

mutual
/-- Python `repr` restricted to JSON-decoded values (string escaping inside
nested containers is not modelled; no claim reads those strings). -/
def pyRepr : JVal → String
  | .jnull => "None"
  | .jbool true => "True"
  | .jbool false => "False"
  | .jint n => toString n
  | .jfloat q => toString q
  | .jstr s => "'" ++ s ++ "'"
  | .jarr xs => "[" ++ String.intercalate ", " (pyReprList xs) ++ "]"
  | .jobj fs => "\x7b" ++ String.intercalate ", " (pyReprFields fs) ++ "\x7d"

def pyReprList : List JVal → List String
  | [] => []
  | x :: xs => pyRepr x :: pyReprList xs

def pyReprFields : List (String × JVal) → List String
  | [] => []
  | (k, v) :: fs => ("'" ++ k ++ "': " ++ pyRepr v) :: pyReprFields fs
end

/-- Python `str` (as used by an f-string interpolation): identity on
strings, `repr`-like on everything else. -/
def pyStr : JVal → String
  | .jstr s => s
  | v => pyRepr v

/-- Python `request.get(key, default)`: dictionary lookup with a default on
a dict, `AttributeError` on any non-dict value. -/
def pyGet : JVal → String → JVal → Except PyError JVal
  | .jobj fs, k, d => .ok ((fs.lookup k).getD d)
  | _, _, _ => .error .attributeError

/-- `TCPServer.fibonacci` on Python ints: `if n <= 1: return n` else the
naive double recursion.  Total on all of `Int` (negative arguments are
returned unchanged), exactly as in the source. -/
def fibonacci (n : Int) : Int :=
  if n ≤ 1 then n
  else fibonacci (n - 1) + fibonacci (n - 2)
termination_by n.toNat
decreasing_by
  all_goals simp at *
  all_goals omega

/-- `TCPServer.fibonacci` applied to a Python float (floats support `<=`
and `-`, so the same source function runs on them); modelled on exact
rationals. -/
def fibonacciF (q : ℚ) : ℚ :=
  if q ≤ 1 then q
  else fibonacciF (q - 1) + fibonacciF (q - 2)
termination_by (⌈q⌉).toNat
decreasing_by
  all_goals rename_i h
  · have h1 : (1 : ℚ) < q := not_le.mp h
    have hc : (1 : ℤ) < ⌈q⌉ := Int.lt_ceil.mpr (by exact_mod_cast h1)
    have hs : ⌈q - 1⌉ = ⌈q⌉ - 1 := by
      exact_mod_cast Int.ceil_sub_int q (1 : ℤ)
    simp only [hs]
    omega
  · have h1 : (1 : ℚ) < q := not_le.mp h
    have hc : (1 : ℤ) < ⌈q⌉ := Int.lt_ceil.mpr (by exact_mod_cast h1)
    have hs : ⌈q - 2⌉ = ⌈q⌉ - 2 := by
      exact_mod_cast Int.ceil_sub_int q (2 : ℤ)
    simp only [hs]
    omega

/-- The canonical Fibonacci function as the specification states it:
`fib(0)=0, fib(1)=1, fib(n)=fib(n-1)+fib(n-2)`.  Written from the spec's
words, to be compared with the source's `fibonacci`. -/
def fibSpec : Nat → Nat
  | 0 => 0
  | 1 => 1
  | n + 2 => fibSpec (n + 1) + fibSpec n

/-- The hashing loop of `handle_hash`:
`result = data; for i in range(iterations): result = sha256hex(result)`. -/
def hashLoop (sha256hex : String → String) : Nat → String → String
  | 0, s => s
  | k + 1, s => hashLoop sha256hex k (sha256hex s)

/-- `TCPServer.handle_echo`: `message` defaults to `''`; the f-string
`f"Echo: {message}"` accepts any value. -/
def handle_echo (req : JVal) (now : Nat) : Except PyError Response := do
  let m ← pyGet req "message" (.jstr "")
  .ok (.echo ("Echo: " ++ pyStr m) now)

/-- `TCPServer.handle_compute`: `number` defaults to `1000`; `fibonacci`
runs on ints, bools (Python bools are ints, and `n <= 1` holds for both, so
`fibonacci` returns the bool unchanged) and floats, and raises `TypeError`
on any other type at the `n <= 1` comparison. -/
def handle_compute (req : JVal) (now : Nat) : Except PyError Response := do
  let nv ← pyGet req "number" (.jint 1000)
  match nv with
  | .jint n => .ok (.compute (.jint n) (.jint (fibonacci n)) now)
  | .jbool b => .ok (.compute (.jbool b) (.jbool b) now)
  | .jfloat q => .ok (.compute (.jfloat q) (.jfloat (fibonacciF q)) now)
  | _ => .error .typeError

/-- `TCPServer.handle_hash`: `data` defaults to `'default'`, `iterations`
to `10000`.  `range(iterations)` needs an int (a bool counts as 0/1,
`range` of a negative int is empty); each iteration calls
`data.encode()` (AttributeError on a non-str once the loop runs); the
final `result[:32]` slices a str or a list and raises `TypeError`
otherwise. -/
def handle_hash (sha256hex : String → String) (req : JVal) (now : Nat) :
    Except PyError Response := do
  let d ← pyGet req "data" (.jstr "default")
  let itv ← pyGet req "iterations" (.jint 10000)
  let iters : Nat ←
    match itv with
    | .jint n => .ok n.toNat
    | .jbool b => .ok (cond b 1 0)
    | _ => .error .typeError
  match d, iters with
  | .jstr s, k => .ok (.hash (.jstr ((hashLoop sha256hex k s).take 32)) itv now)
  | .jarr xs, 0 => .ok (.hash (.jarr (xs.take 32)) itv now)
  | _, 0 => .error .typeError
  | _, _ + 1 => .error .attributeError

/-- `TCPServer.handle_slow_operation`: `delay` defaults to `0.1`;
`time.sleep(delay)` accepts ints, floats and bools (bools count as 0/1),
raises `ValueError` on a negative delay, and raises `TypeError` on any
other type.  The sleep's passage of time has no effect in this pure model,
and the `OverflowError` on astronomically large delays is a platform
resource bound left out of it (like the interpreter's recursion limit). -/
def handle_slow_operation (req : JVal) (now : Nat) : Except PyError Response := do
  let dv ← pyGet req "delay" (.jfloat (1 / 10))
  match dv with
  | .jint n =>
      if n < 0 then .error .valueError
      else .ok (.slow ("Completed slow operation with " ++ pyStr (.jint n) ++ "s delay") now)
  | .jfloat q =>
      if q < 0 then .error .valueError
      else .ok (.slow ("Completed slow operation with " ++ pyStr (.jfloat q) ++ "s delay") now)
  | .jbool b =>
      .ok (.slow ("Completed slow operation with " ++ pyStr (.jbool b) ++ "s delay") now)
  | _ => .error .typeError

/-- `TCPServer.process_request`: decode the payload (a `none` from
`jsonLoads` models the raised `json.JSONDecodeError`, answered by the
best-effort echo); otherwise read `type` (default `'echo'`) and route via
the source's `if`/`elif` chain.  Any `PyError` raised by `.get` or a
handler propagates uncaught, exactly as in the source, where only
`json.JSONDecodeError` is caught. -/
def process_request (sha256hex : String → String)
    (jsonLoads : String → Option JVal) (data : String) (now : Nat) :
    Except PyError Response :=
  match jsonLoads data with
  | none => .ok (.echo ("Echo: " ++ data) now)
  | some req => do
      let t ← pyGet req "type" (.jstr "echo")
      match t with
      | .jstr s =>
          if s = "echo" then handle_echo req now
          else if s = "compute" then handle_compute req now
          else if s = "hash" then handle_hash sha256hex req now
          else if s = "slow" then handle_slow_operation req now
          else .ok (.error "Unknown request type")
      | _ => .ok (.error "Unknown request type")

/-! ## The per-connection loop (`TCPServer.handle_client`) -/

/-- One receive event on a connection: `chunk s` models
`client_socket.recv(1024).decode('utf-8')` returning the text `s` (the
empty string models the peer having closed its side), `reset` models the
read raising `ConnectionResetError`.  Writes are modelled as always
succeeding. -/
inductive NetEvent where
  | chunk : String → NetEvent
  | reset : NetEvent
deriving Repr, DecidableEq

/-- How `handle_client`'s `while True` loop ended: a clean zero-byte read
(`break`), a caught `ConnectionResetError`, a caught `Exception` raised by
`process_request`, or the event trace running out while the loop is still
blocked in `recv`. -/
inductive ExitCause where
  | peerClosed : ExitCause
  | connectionReset : ExitCause
  | exception : PyError → ExitCause
  | starved : ExitCause
deriving Repr, DecidableEq

/-- The body of `handle_client`'s `try` block: read one message per
iteration, `break` on an empty read, otherwise dispatch and send the
response.  Returns the responses sent, in order, and why the loop ended.
The `clock` gives the `time.time()` value observed by the n-th dispatch. -/
def serveLoop (sha256hex : String → String) (jsonLoads : String → Option JVal)
    (clock : Nat → Nat) : List NetEvent → List Response × ExitCause
  | [] => ([], .starved)
  | .reset :: _ => ([], .connectionReset)
  | .chunk s :: rest =>
    if s = "" then ([], .peerClosed)
    else
      match process_request sha256hex jsonLoads s (clock 0) with
      | .ok r =>
          let p := serveLoop sha256hex jsonLoads (fun i => clock (i + 1)) rest
          (r :: p.1, p.2)
      | .error e => ([], .exception e)

/-- Observable outcome of one `handle_client` run: the responses written
back, the loop's exit cause, whether `close()` ran, and the server's
`self.clients` registry after the `finally` block. -/
structure ClientResult where
  sent : List Response
  cause : ExitCause
  closed : Bool
  registry : List Nat
deriving Repr

/-- `TCPServer.handle_client` for one connection (modelled by its id
`sock`): run the read/dispatch/send loop, then the `finally` block —
`close()` and `if client_socket in self.clients: self.clients.remove(...)`
(Python `list.remove` deletes the first occurrence, i.e. `List.erase`). -/
def handle_client (sha256hex : String → String)
    (jsonLoads : String → Option JVal) (clock : Nat → Nat) (sock : Nat)
    (clients : List Nat) (events : List NetEvent) : ClientResult :=
  let p := serveLoop sha256hex jsonLoads clock events
  ⟨p.1, p.2, true, clients.erase sock⟩

/-! ## Well-typedness of decoded payloads, and decode models for concrete
instances -/

/-- A `number` value `fibonacci` handles without raising: int, bool or
float. -/
def goodNumber : JVal → Bool
  | .jint _ => true
  | .jbool _ => true
  | .jfloat _ => true
  | _ => false

/-- A `data` value the hashing loop and the final slice handle without
raising for every iteration count: a string. -/
def goodData : JVal → Bool
  | .jstr _ => true
  | _ => false

/-- An `iterations` value `range` accepts: int or bool. -/
def goodIter : JVal → Bool
  | .jint _ => true
  | .jbool _ => true
  | _ => false

/-- A `delay` value `time.sleep` accepts without raising: a non-negative
int or float, or a bool (always 0 or 1); negative delays raise
`ValueError`. -/
def goodDelay : JVal → Bool
  | .jint n => decide (0 ≤ n)
  | .jfloat q => decide (0 ≤ q)
  | .jbool _ => true
  | _ => false

/-- Whether a `type` field value selects one of the four handlers (Python's
`==` against a string literal is `False` on every non-string value). -/
def knownKind : JVal → Bool
  | .jstr s => s == "echo" || s == "compute" || s == "hash" || s == "slow"
  | _ => false

/-- Fields of a decoded JSON object on which the selected handler raises
nothing: any `message` for echo, an int/bool/float `number` for compute,
a string `data` and int/bool `iterations` for hash, a non-negative
int/float or bool `delay` for slow; unknown kinds take no fields. -/
def goodFields (fs : List (String × JVal)) : Bool :=
  match (fs.lookup "type").getD (.jstr "echo") with
  | .jstr s =>
    if s = "echo" then true
    else if s = "compute" then goodNumber ((fs.lookup "number").getD (.jint 1000))
    else if s = "hash" then
      goodData ((fs.lookup "data").getD (.jstr "default"))
        && goodIter ((fs.lookup "iterations").getD (.jint 10000))
    else if s = "slow" then goodDelay ((fs.lookup "delay").getD (.jfloat (1 / 10)))
    else true
  | _ => true

/-- Decode outcomes on which `process_request` provably produces a
response value: a decode failure (the caught `JSONDecodeError`), or a
decoded object with well-typed kind-specific fields. -/
def goodRequest : Option JVal → Bool
  | none => true
  | some (.jobj fs) => goodFields fs
  | some _ => false

/-- Decode model in which every payload fails to decode, as `json.loads`
does on non-JSON text; used to instantiate witnesses. -/
def jlFail : String → Option JVal := fun _ => none

/-- Decode model returning a fixed decoded value for every payload; a
witness instantiates it with the value `json.loads` returns on the one
concrete payload the witness sends. -/
def jlConst (v : JVal) : String → Option JVal := fun _ => some v

/-- A concrete stand-in for `hashlib.sha256(·).hexdigest()` used to
instantiate witnesses (the real digest function is external to the
repository; every theorem is quantified over it). -/
def hashStub : String → String := fun s => "h" ++ s

/-! ## Helper lemmas -/

theorem ok_bind {ε α β : Type} (a : α) (f : α → Except ε β) :
    (Except.ok a : Except ε α) >>= f = f a := rfl

theorem process_request_decode_fail (sha : String → String)
    (jl : String → Option JVal) (data : String) (now : Nat)
    (h : jl data = none) :
    process_request sha jl data now = .ok (.echo ("Echo: " ++ data) now) := by
  simp [process_request, h]

theorem process_request_route (sha : String → String)
    (jl : String → Option JVal) (data : String) (now : Nat)
    (fs : List (String × JVal)) (h : jl data = some (.jobj fs)) :
    process_request sha jl data now =
      (match (fs.lookup "type").getD (.jstr "echo") with
       | .jstr s =>
          if s = "echo" then handle_echo (.jobj fs) now
          else if s = "compute" then handle_compute (.jobj fs) now
          else if s = "hash" then handle_hash sha (.jobj fs) now
          else if s = "slow" then handle_slow_operation (.jobj fs) now
          else .ok (.error "Unknown request type")
       | _ => .ok (.error "Unknown request type")) := by
  simp [process_request, h, pyGet, ok_bind]

theorem fibonacci_le_one (m : Int) (h : m ≤ 1) : fibonacci m = m := by
  unfold fibonacci
  rw [if_pos h]

theorem fibonacci_natCast (k : Nat) : fibonacci (k : Int) = (fibSpec k : Int) := by
  induction k using Nat.strong_induction_on with
  | _ k ih =>
    match k with
    | 0 => rw [Nat.cast_zero, fibonacci_le_one 0 (by omega)]; simp [fibSpec]
    | 1 => rw [Nat.cast_one, fibonacci_le_one 1 (by omega)]; simp [fibSpec]
    | (m + 2) =>
      unfold fibonacci
      have hgt : ¬(((m + 2 : Nat) : Int) ≤ 1) := by push_cast; omega
      rw [if_neg hgt]
      have e1 : ((m + 2 : Nat) : Int) - 1 = ((m + 1 : Nat) : Int) := by push_cast; ring
      have e2 : ((m + 2 : Nat) : Int) - 2 = ((m : Nat) : Int) := by push_cast; ring
      rw [e1, e2, ih (m + 1) (by omega), ih m (by omega)]
      have : fibSpec (m + 2) = fibSpec (m + 1) + fibSpec m := rfl
      rw [this]
      push_cast
      ring

/-! ## The claims -/

/-- **C4.** Every payload that fails to decode as JSON (`json.loads`
raising `JSONDecodeError`) is answered by an echo-shaped response wrapping
the raw payload text with a fresh timestamp — not an error response — and
the connection loop stays open to serve the next message. -/
theorem malformed_payload_best_effort_echo (sha : String → String)
    (jl : String → Option JVal) (clock : Nat → Nat) (sock : Nat)
    (clients : List Nat) (data : String) (now : Nat)
    (h : jl data = none) :
    process_request sha jl data now = .ok (.echo ("Echo: " ++ data) now)
    ∧ (data ≠ "" →
        handle_client sha jl clock sock clients [.chunk data, .chunk ""]
          = ⟨[.echo ("Echo: " ++ data) (clock 0)], .peerClosed, true,
              clients.erase sock⟩) := by
  constructor
  · exact process_request_decode_fail sha jl data now h
  · intro hne
    simp [handle_client, serveLoop, hne, process_request, h]

/-- Witness for C4 at the concrete non-JSON payload `"hello"`. -/
theorem malformed_payload_best_effort_echo_witness :
    jlFail "hello" = none ∧
    process_request hashStub jlFail "hello" 0
      = .ok (.echo ("Echo: " ++ "hello") 0) :=
  ⟨rfl,
   (malformed_payload_best_effort_echo hashStub jlFail (fun _ => 0) 0 []
      "hello" 0 rfl).1⟩

/-- **C5.** A decoded request whose `type` field is present but selects
none of the four handlers is answered by exactly
`{'error': 'Unknown request type'}` — a fixed message and no timestamp
field (the `error` response shape carries none) — and the connection loop
stays open to serve the next message. -/
theorem unknown_kind_error_response (sha : String → String)
    (jl : String → Option JVal) (clock : Nat → Nat) (sock : Nat)
    (clients : List Nat) (data : String) (now : Nat)
    (fs : List (String × JVal)) (t : JVal)
    (hjl : jl data = some (.jobj fs))
    (ht : fs.lookup "type" = some t)
    (hk : knownKind t = false) :
    process_request sha jl data now = .ok (.error "Unknown request type")
    ∧ (data ≠ "" →
        handle_client sha jl clock sock clients [.chunk data, .chunk ""]
          = ⟨[.error "Unknown request type"], .peerClosed, true,
              clients.erase sock⟩) := by
  have hmain : ∀ nw : Nat,
      process_request sha jl data nw = .ok (.error "Unknown request type") := by
    intro nw
    rw [process_request_route sha jl data nw fs hjl, ht]
    cases t with
    | jstr s =>
      simp only [knownKind, Bool.or_eq_false_iff, beq_eq_false_iff_ne, ne_eq] at hk
      obtain ⟨⟨⟨h1, h2⟩, h3⟩, h4⟩ := hk
      simp [Option.getD, h1, h2, h3, h4]
    | jnull => rfl
    | jbool b => rfl
    | jint n => rfl
    | jfloat q => rfl
    | jarr xs => rfl
    | jobj gs => rfl
  refine ⟨hmain now, fun hne => ?_⟩
  simp [handle_client, serveLoop, hne, hmain (clock 0)]

/-- Witness for C5 at the concrete unknown kind `"banana"`. -/
theorem unknown_kind_error_response_witness :
    jlConst (.jobj [("type", .jstr "banana")]) "x" = some (.jobj [("type", .jstr "banana")]) ∧
    ([("type", JVal.jstr "banana")].lookup "type" = some (.jstr "banana")) ∧
    knownKind (.jstr "banana") = false ∧
    process_request hashStub (jlConst (.jobj [("type", .jstr "banana")])) "x" 7
      = .ok (.error "Unknown request type") :=
  ⟨rfl, rfl, rfl,
   (unknown_kind_error_response hashStub (jlConst (.jobj [("type", .jstr "banana")]))
      (fun _ => 7) 0 [] "x" 7 [("type", .jstr "banana")] (.jstr "banana")
      rfl rfl rfl).1⟩

/-- **C10.** A `compute` request whose `number` field is a negative
integer is answered normally, with `result` equal to the number itself,
because `fibonacci` returns its argument unchanged whenever `n <= 1`. -/
theorem negative_number_returns_input (sha : String → String)
    (jl : String → Option JVal) (data : String) (now : Nat)
    (fs : List (String × JVal)) (n : Int)
    (hjl : jl data = some (.jobj fs))
    (ht : fs.lookup "type" = some (.jstr "compute"))
    (hn : fs.lookup "number" = some (.jint n))
    (hneg : n < 0) :
    process_request sha jl data now = .ok (.compute (.jint n) (.jint n) now)
    ∧ (∀ m : Int, m ≤ 1 → fibonacci m = m) := by
  refine ⟨?_, fun m hm => fibonacci_le_one m hm⟩
  rw [process_request_route sha jl data now fs hjl, ht]
  simp only [Option.getD]
  have : fibonacci n = n := fibonacci_le_one n (by omega)
  simp [handle_compute, pyGet, hn, ok_bind, this]

/-- Witness for C10 at the concrete negative number `-5`. -/
theorem negative_number_returns_input_witness :
    jlConst (.jobj [("type", .jstr "compute"), ("number", .jint (-5))]) "x"
      = some (.jobj [("type", .jstr "compute"), ("number", .jint (-5))]) ∧
    ((-5 : Int) < 0) ∧
    process_request hashStub
      (jlConst (.jobj [("type", .jstr "compute"), ("number", .jint (-5))])) "x" 3
      = .ok (.compute (.jint (-5)) (.jint (-5)) 3) :=
  ⟨rfl, by norm_num,
   (negative_number_returns_input hashStub
      (jlConst (.jobj [("type", .jstr "compute"), ("number", .jint (-5))])) "x" 3
      [("type", .jstr "compute"), ("number", .jint (-5))] (-5)
      rfl rfl rfl (by norm_num)).1⟩

/-- Routing plus `handle_hash` on a string `data` and int `iterations`:
the response's `result` is the first 32 characters of the iterated digest
(Python `range` of a negative int is empty, hence `toNat`). -/
theorem handle_hash_str (sha : String → String) (fs : List (String × JVal))
    (now : Nat) (d : String) (k : Int)
    (hd : fs.lookup "data" = some (.jstr d))
    (hk : fs.lookup "iterations" = some (.jint k)) :
    handle_hash sha (.jobj fs) now
      = .ok (.hash (.jstr ((hashLoop sha k.toNat d).take 32)) (.jint k) now) := by
  simp [handle_hash, pyGet, hd, hk, ok_bind]

/-- **C6.** An `echo` request is answered with `response` equal to
`"Echo: " + message`; an omitted `message` defaults to the empty text,
yielding `"Echo: "`; and a decoded request with no `type` field is routed
to the echo handler. -/
theorem echo_message_and_default_routing (sha : String → String)
    (jl : String → Option JVal) (data : String) (now : Nat)
    (fs : List (String × JVal))
    (hjl : jl data = some (.jobj fs)) :
    (∀ m : String, fs.lookup "type" = some (.jstr "echo") →
       fs.lookup "message" = some (.jstr m) →
       process_request sha jl data now = .ok (.echo ("Echo: " ++ m) now))
    ∧ (fs.lookup "type" = some (.jstr "echo") → fs.lookup "message" = none →
       process_request sha jl data now = .ok (.echo "Echo: " now))
    ∧ (fs.lookup "type" = none →
       process_request sha jl data now = handle_echo (.jobj fs) now) := by
  refine ⟨fun m ht hm => ?_, fun ht hm => ?_, fun ht => ?_⟩
  · rw [process_request_route sha jl data now fs hjl, ht]
    simp [handle_echo, pyGet, hm, ok_bind, pyStr]
  · rw [process_request_route sha jl data now fs hjl, ht]
    simp [handle_echo, pyGet, hm, ok_bind, pyStr]
  · rw [process_request_route sha jl data now fs hjl, ht]
    simp

/-- Witness for C6 at the concrete message `"hi"`. -/
theorem echo_message_and_default_routing_witness :
    jlConst (.jobj [("type", .jstr "echo"), ("message", .jstr "hi")]) "x"
      = some (.jobj [("type", .jstr "echo"), ("message", .jstr "hi")]) ∧
    process_request hashStub
      (jlConst (.jobj [("type", .jstr "echo"), ("message", .jstr "hi")])) "x" 4
      = .ok (.echo ("Echo: " ++ "hi") 4) :=
  ⟨rfl,
   (echo_message_and_default_routing hashStub
      (jlConst (.jobj [("type", .jstr "echo"), ("message", .jstr "hi")])) "x" 4
      [("type", .jstr "echo"), ("message", .jstr "hi")] rfl).1 "hi" rfl rfl⟩

/-- **C2.** A `compute` request with integer `number = n`, `0 ≤ n ≤ 20`,
is answered with kind `compute`, `input = n` and `result` equal to the
canonical Fibonacci value of the spec (`fibSpec`, with
`fibSpec 10 = 55` and `fibSpec 20 = 6765`); an omitted `number` defaults
to `1000`. -/
theorem compute_fibonacci_correct (sha : String → String)
    (jl : String → Option JVal) (data : String) (now : Nat)
    (fs : List (String × JVal))
    (hjl : jl data = some (.jobj fs))
    (ht : fs.lookup "type" = some (.jstr "compute")) :
    (∀ n : Nat, n ≤ 20 → fs.lookup "number" = some (.jint (n : Int)) →
       process_request sha jl data now
         = .ok (.compute (.jint (n : Int)) (.jint ((fibSpec n : Nat) : Int)) now))
    ∧ (fs.lookup "number" = none →
       process_request sha jl data now
         = .ok (.compute (.jint 1000) (.jint ((fibSpec 1000 : Nat) : Int)) now))
    ∧ fibSpec 10 = 55 ∧ fibSpec 20 = 6765 := by
  refine ⟨fun n hn20 hn => ?_, fun hn => ?_, by decide, by decide⟩
  · rw [process_request_route sha jl data now fs hjl, ht]
    simp [handle_compute, pyGet, hn, ok_bind, fibonacci_natCast n]
  · rw [process_request_route sha jl data now fs hjl, ht]
    have h1000 : fibonacci (1000 : Int) = ((fibSpec 1000 : Nat) : Int) := by
      have := fibonacci_natCast 1000
      norm_num at this
      exact_mod_cast this
    simp [handle_compute, pyGet, hn, ok_bind, h1000]

/-- Witness for C2 at the concrete index `n = 10`. -/
theorem compute_fibonacci_correct_witness :
    jlConst (.jobj [("type", .jstr "compute"), ("number", .jint 10)]) "x"
      = some (.jobj [("type", .jstr "compute"), ("number", .jint 10)]) ∧
    (10 : Nat) ≤ 20 ∧
    process_request hashStub
      (jlConst (.jobj [("type", .jstr "compute"), ("number", .jint 10)])) "x" 2
      = .ok (.compute (.jint ((10 : Nat) : Int)) (.jint ((fibSpec 10 : Nat) : Int)) 2) :=
  ⟨rfl, by omega,
   (compute_fibonacci_correct hashStub
      (jlConst (.jobj [("type", .jstr "compute"), ("number", .jint 10)])) "x" 2
      [("type", .jstr "compute"), ("number", .jint 10)] rfl rfl).1 10 (by omega) rfl⟩

/-- **C3.** A `hash` request with string `data = s` and non-negative
integer `iterations = k` is answered with `result` equal to the first 32
characters of the `k`-fold iterated digest of `s`; with `k = 0` the result
is `s` itself truncated to 32 characters; with both fields omitted the
defaults `"default"` and `10000` apply. -/
theorem hash_iterated_digest (sha : String → String)
    (jl : String → Option JVal) (data : String) (now : Nat)
    (fs : List (String × JVal))
    (hjl : jl data = some (.jobj fs))
    (ht : fs.lookup "type" = some (.jstr "hash")) :
    (∀ (s : String) (k : Nat), fs.lookup "data" = some (.jstr s) →
       fs.lookup "iterations" = some (.jint (k : Int)) →
       process_request sha jl data now
         = .ok (.hash (.jstr ((hashLoop sha k s).take 32)) (.jint (k : Int)) now))
    ∧ (∀ s : String, fs.lookup "data" = some (.jstr s) →
       fs.lookup "iterations" = some (.jint 0) →
       process_request sha jl data now
         = .ok (.hash (.jstr (s.take 32)) (.jint 0) now))
    ∧ (fs.lookup "data" = none → fs.lookup "iterations" = none →
       process_request sha jl data now
         = .ok (.hash (.jstr ((hashLoop sha 10000 "default").take 32))
             (.jint 10000) now)) := by
  refine ⟨fun s k hd hk => ?_, fun s hd hk => ?_, fun hd hk => ?_⟩
  · rw [process_request_route sha jl data now fs hjl, ht]
    simp only [Option.getD]
    rw [handle_hash_str sha fs now s (k : Int) hd hk]
    simp
  · rw [process_request_route sha jl data now fs hjl, ht]
    simp only [Option.getD]
    rw [handle_hash_str sha fs now s 0 hd hk]
    simp [hashLoop]
  · rw [process_request_route sha jl data now fs hjl, ht]
    simp [handle_hash, pyGet, hd, hk, ok_bind]

/-- Witness for C3 at the concrete input `data = "abc"`, `iterations = 2`. -/
theorem hash_iterated_digest_witness :
    jlConst (.jobj [("type", .jstr "hash"), ("data", .jstr "abc"),
        ("iterations", .jint 2)]) "x"
      = some (.jobj [("type", .jstr "hash"), ("data", .jstr "abc"),
          ("iterations", .jint 2)]) ∧
    process_request hashStub
      (jlConst (.jobj [("type", .jstr "hash"), ("data", .jstr "abc"),
          ("iterations", .jint 2)])) "x" 5
      = .ok (.hash (.jstr ((hashLoop hashStub 2 "abc").take 32))
          (.jint ((2 : Nat) : Int)) 5) :=
  ⟨rfl,
   (hash_iterated_digest hashStub
      (jlConst (.jobj [("type", .jstr "hash"), ("data", .jstr "abc"),
          ("iterations", .jint 2)])) "x" 5
      [("type", .jstr "hash"), ("data", .jstr "abc"), ("iterations", .jint 2)]
      rfl rfl).1 "abc" 2 rfl rfl⟩

/-- **C9.** Two `hash` requests carrying the same `data` text and the same
`iterations` integer receive the same `result` (a pure function of the two
fields); only the timestamps may differ. -/
theorem hash_result_deterministic (sha : String → String)
    (jl1 jl2 : String → Option JVal) (data1 data2 : String) (now1 now2 : Nat)
    (fs1 fs2 : List (String × JVal)) (d : String) (k : Int)
    (hjl1 : jl1 data1 = some (.jobj fs1))
    (hjl2 : jl2 data2 = some (.jobj fs2))
    (ht1 : fs1.lookup "type" = some (.jstr "hash"))
    (ht2 : fs2.lookup "type" = some (.jstr "hash"))
    (hd1 : fs1.lookup "data" = some (.jstr d))
    (hd2 : fs2.lookup "data" = some (.jstr d))
    (hk1 : fs1.lookup "iterations" = some (.jint k))
    (hk2 : fs2.lookup "iterations" = some (.jint k)) :
    ∃ R : String,
      process_request sha jl1 data1 now1 = .ok (.hash (.jstr R) (.jint k) now1)
      ∧ process_request sha jl2 data2 now2 = .ok (.hash (.jstr R) (.jint k) now2) := by
  refine ⟨(hashLoop sha k.toNat d).take 32, ?_, ?_⟩
  · rw [process_request_route sha jl1 data1 now1 fs1 hjl1, ht1]
    simp only [Option.getD]
    rw [handle_hash_str sha fs1 now1 d k hd1 hk1]
    simp
  · rw [process_request_route sha jl2 data2 now2 fs2 hjl2, ht2]
    simp only [Option.getD]
    rw [handle_hash_str sha fs2 now2 d k hd2 hk2]
    simp

/-- Witness for C9: the same `data`/`iterations` sent at two different
timestamps yields the same result string. -/
theorem hash_result_deterministic_witness :
    ∃ R : String,
      process_request hashStub
        (jlConst (.jobj [("type", .jstr "hash"), ("data", .jstr "abc"),
            ("iterations", .jint 3)])) "x" 1
        = .ok (.hash (.jstr R) (.jint 3) 1)
      ∧ process_request hashStub
        (jlConst (.jobj [("type", .jstr "hash"), ("data", .jstr "abc"),
            ("iterations", .jint 3)])) "y" 9
        = .ok (.hash (.jstr R) (.jint 3) 9) :=
  hash_result_deterministic hashStub
    (jlConst (.jobj [("type", .jstr "hash"), ("data", .jstr "abc"),
        ("iterations", .jint 3)]))
    (jlConst (.jobj [("type", .jstr "hash"), ("data", .jstr "abc"),
        ("iterations", .jint 3)]))
    "x" "y" 1 9
    [("type", .jstr "hash"), ("data", .jstr "abc"), ("iterations", .jint 3)]
    [("type", .jstr "hash"), ("data", .jstr "abc"), ("iterations", .jint 3)]
    "abc" 3 rfl rfl rfl rfl rfl rfl rfl rfl

/-- **C1 (counterexample).** The claim "process_request never raises past
its boundary, regardless of the payload's content" is false: `json.loads`
maps the payload `"[]"` to a JSON array (a non-object), on which
`request.get('type', 'echo')` raises `AttributeError`, which escapes
`process_request` because only `json.JSONDecodeError` is caught. -/
theorem process_request_raises_on_json_array :
    process_request hashStub (jlConst (.jarr [])) "[]" 0
      = .error .attributeError := rfl

/-- A second escape, inside the well-typed-by-kind shapes: the payload
`{"type": "slow", "delay": -1}` reaches `time.sleep(-1)`, whose
`ValueError` is likewise uncaught by `process_request`. -/
theorem process_request_raises_on_negative_delay :
    process_request hashStub
      (jlConst (.jobj [("type", .jstr "slow"), ("delay", .jint (-1))])) "x" 0
      = .error .valueError := rfl

/-- `handle_echo` never raises on a decoded object. -/
theorem handle_echo_total (fs : List (String × JVal)) (now : Nat) :
    ∃ r, handle_echo (.jobj fs) now = .ok r := ⟨_, rfl⟩

/-- `handle_compute` never raises when the `number` field (or its default)
is an int, bool or float. -/
theorem handle_compute_total (fs : List (String × JVal)) (now : Nat)
    (hg : goodNumber ((fs.lookup "number").getD (.jint 1000)) = true) :
    ∃ r, handle_compute (.jobj fs) now = .ok r := by
  cases hv : (fs.lookup "number").getD (.jint 1000) with
  | jint n =>
    have he : handle_compute (.jobj fs) now
        = .ok (.compute (.jint n) (.jint (fibonacci n)) now) := by
      simp [handle_compute, pyGet, hv, ok_bind]
    exact ⟨_, he⟩
  | jbool b =>
    have he : handle_compute (.jobj fs) now
        = .ok (.compute (.jbool b) (.jbool b) now) := by
      simp [handle_compute, pyGet, hv, ok_bind]
    exact ⟨_, he⟩
  | jfloat q =>
    have he : handle_compute (.jobj fs) now
        = .ok (.compute (.jfloat q) (.jfloat (fibonacciF q)) now) := by
      simp [handle_compute, pyGet, hv, ok_bind]
    exact ⟨_, he⟩
  | jnull => rw [hv] at hg; simp [goodNumber] at hg
  | jstr u => rw [hv] at hg; simp [goodNumber] at hg
  | jarr xs => rw [hv] at hg; simp [goodNumber] at hg
  | jobj gs => rw [hv] at hg; simp [goodNumber] at hg

/-- `handle_hash` never raises when `data` (or its default) is a string
and `iterations` (or its default) is an int or bool. -/
theorem handle_hash_total (sha : String → String) (fs : List (String × JVal))
    (now : Nat)
    (hD : goodData ((fs.lookup "data").getD (.jstr "default")) = true)
    (hI : goodIter ((fs.lookup "iterations").getD (.jint 10000)) = true) :
    ∃ r, handle_hash sha (.jobj fs) now = .ok r := by
  cases hv : (fs.lookup "data").getD (.jstr "default") with
  | jstr u =>
    cases hiv : (fs.lookup "iterations").getD (.jint 10000) with
    | jint k =>
      have he : handle_hash sha (.jobj fs) now
          = .ok (.hash (.jstr ((hashLoop sha k.toNat u).take 32)) (.jint k) now) := by
        simp [handle_hash, pyGet, hv, hiv, ok_bind]
      exact ⟨_, he⟩
    | jbool b =>
      have he : handle_hash sha (.jobj fs) now
          = .ok (.hash (.jstr ((hashLoop sha (cond b 1 0) u).take 32)) (.jbool b) now) := by
        simp [handle_hash, pyGet, hv, hiv, ok_bind]
      exact ⟨_, he⟩
    | jnull => rw [hiv] at hI; simp [goodIter] at hI
    | jfloat q => rw [hiv] at hI; simp [goodIter] at hI
    | jstr w => rw [hiv] at hI; simp [goodIter] at hI
    | jarr xs => rw [hiv] at hI; simp [goodIter] at hI
    | jobj gs => rw [hiv] at hI; simp [goodIter] at hI
  | jnull => rw [hv] at hD; simp [goodData] at hD
  | jbool b => rw [hv] at hD; simp [goodData] at hD
  | jint n => rw [hv] at hD; simp [goodData] at hD
  | jfloat q => rw [hv] at hD; simp [goodData] at hD
  | jarr xs => rw [hv] at hD; simp [goodData] at hD
  | jobj gs => rw [hv] at hD; simp [goodData] at hD

/-- `handle_slow_operation` never raises when the `delay` field (or its
default) is a non-negative int or float, or a bool. -/
theorem handle_slow_operation_total (fs : List (String × JVal)) (now : Nat)
    (hg : goodDelay ((fs.lookup "delay").getD (.jfloat (1 / 10))) = true) :
    ∃ r, handle_slow_operation (.jobj fs) now = .ok r := by
  cases hv : (fs.lookup "delay").getD (.jfloat (1 / 10)) with
  | jint n =>
    rw [hv] at hg
    have hn : (0 : Int) ≤ n := of_decide_eq_true hg
    have he : handle_slow_operation (.jobj fs) now
        = .ok (.slow ("Completed slow operation with " ++ pyStr (.jint n) ++ "s delay") now) := by
      simp only [handle_slow_operation, pyGet, ok_bind, hv]
      rw [if_neg (not_lt.mpr hn)]
    exact ⟨_, he⟩
  | jfloat q =>
    rw [hv] at hg
    have hq : (0 : ℚ) ≤ q := of_decide_eq_true hg
    have he : handle_slow_operation (.jobj fs) now
        = .ok (.slow ("Completed slow operation with " ++ pyStr (.jfloat q) ++ "s delay") now) := by
      simp only [handle_slow_operation, pyGet, ok_bind, hv]
      rw [if_neg (not_lt.mpr hq)]
    exact ⟨_, he⟩
  | jbool b =>
    have he : handle_slow_operation (.jobj fs) now
        = .ok (.slow ("Completed slow operation with " ++ pyStr (.jbool b) ++ "s delay") now) := by
      simp only [handle_slow_operation, pyGet, ok_bind]
      rw [hv]
    exact ⟨_, he⟩
  | jnull => rw [hv] at hg; simp [goodDelay] at hg
  | jstr u => rw [hv] at hg; simp [goodDelay] at hg
  | jarr xs => rw [hv] at hg; simp [goodDelay] at hg
  | jobj gs => rw [hv] at hg; simp [goodDelay] at hg

/-- **C1 (amended).** `process_request` returns a response value, raising
nothing, whenever the payload fails to decode (any non-JSON byte string)
or decodes to a JSON object whose kind-specific fields are well-typed and
in range for their handler (for `slow`, a non-negative delay); for a JSON
non-object payload, ill-typed kind-specific fields, or a negative `slow`
delay, an exception escapes its boundary (see the counterexamples above),
to be caught by `handle_client`. -/
theorem process_request_total_on_good_requests (sha : String → String)
    (jl : String → Option JVal) (data : String) (now : Nat)
    (h : goodRequest (jl data) = true) :
    ∃ r, process_request sha jl data now = .ok r := by
  cases hjl : jl data with
  | none => exact ⟨_, process_request_decode_fail sha jl data now hjl⟩
  | some v =>
    rw [hjl] at h
    cases v with
    | jobj fs =>
      simp only [goodRequest] at h
      unfold goodFields at h
      cases hT : (fs.lookup "type").getD (.jstr "echo") with
      | jstr s =>
        rw [hT] at h
        have h' : (if s = "echo" then true
            else if s = "compute" then
              goodNumber ((fs.lookup "number").getD (.jint 1000))
            else if s = "hash" then
              goodData ((fs.lookup "data").getD (.jstr "default"))
                && goodIter ((fs.lookup "iterations").getD (.jint 10000))
            else if s = "slow" then
              goodDelay ((fs.lookup "delay").getD (.jfloat (1 / 10)))
            else true) = true := h
        have hred : process_request sha jl data now =
            (if s = "echo" then handle_echo (.jobj fs) now
             else if s = "compute" then handle_compute (.jobj fs) now
             else if s = "hash" then handle_hash sha (.jobj fs) now
             else if s = "slow" then handle_slow_operation (.jobj fs) now
             else .ok (.error "Unknown request type")) := by
          rw [process_request_route sha jl data now fs hjl, hT]
        rw [hred]
        by_cases he : s = "echo"
        · rw [if_pos he]
          exact handle_echo_total fs now
        · rw [if_neg he]
          by_cases hc : s = "compute"
          · rw [if_pos hc]
            rw [if_neg he, if_pos hc] at h'
            exact handle_compute_total fs now h'
          · rw [if_neg hc]
            by_cases hh : s = "hash"
            · rw [if_pos hh]
              rw [if_neg he, if_neg hc, if_pos hh, Bool.and_eq_true] at h'
              exact handle_hash_total sha fs now h'.1 h'.2
            · rw [if_neg hh]
              by_cases hs : s = "slow"
              · rw [if_pos hs]
                rw [if_neg he, if_neg hc, if_neg hh, if_pos hs] at h'
                exact handle_slow_operation_total fs now h'
              · rw [if_neg hs]
                exact ⟨_, rfl⟩
      | jnull => exact ⟨_, by rw [process_request_route sha jl data now fs hjl, hT]⟩
      | jbool b => exact ⟨_, by rw [process_request_route sha jl data now fs hjl, hT]⟩
      | jint n => exact ⟨_, by rw [process_request_route sha jl data now fs hjl, hT]⟩
      | jfloat q => exact ⟨_, by rw [process_request_route sha jl data now fs hjl, hT]⟩
      | jarr xs => exact ⟨_, by rw [process_request_route sha jl data now fs hjl, hT]⟩
      | jobj gs => exact ⟨_, by rw [process_request_route sha jl data now fs hjl, hT]⟩
    | jnull => simp [goodRequest] at h
    | jbool b => simp [goodRequest] at h
    | jint n => simp [goodRequest] at h
    | jfloat q => simp [goodRequest] at h
    | jstr u => simp [goodRequest] at h
    | jarr xs => simp [goodRequest] at h

/-- Witness for amended C1 at a concrete well-typed `slow` request. -/
theorem process_request_total_on_good_requests_witness :
    goodRequest (jlConst (.jobj [("type", .jstr "slow"), ("delay", .jint 2)]) "x")
      = true ∧
    ∃ r, process_request hashStub
        (jlConst (.jobj [("type", .jstr "slow"), ("delay", .jint 2)])) "x" 1
      = .ok r :=
  ⟨rfl,
   process_request_total_on_good_requests hashStub
     (jlConst (.jobj [("type", .jstr "slow"), ("delay", .jint 2)])) "x" 1 rfl⟩

/-- **C7.** On every run of the connection handler: the socket is closed
and the connection is removed from the registry (one `erase`, in the
`finally` block) on every exit path; a zero-byte read ends the loop with
the clean `peerClosed` cause and no further responses; a peer reset ends
it with `connectionReset`, not an exception. -/
theorem handle_client_cleanup (sha : String → String)
    (jl : String → Option JVal) (clock : Nat → Nat) (sock : Nat)
    (clients : List Nat) (events : List NetEvent) :
    (handle_client sha jl clock sock clients events).closed = true
    ∧ (handle_client sha jl clock sock clients events).registry
        = clients.erase sock
    ∧ (∀ rest, events = NetEvent.chunk "" :: rest →
        (handle_client sha jl clock sock clients events).cause = .peerClosed
        ∧ (handle_client sha jl clock sock clients events).sent = [])
    ∧ (∀ rest, events = NetEvent.reset :: rest →
        (handle_client sha jl clock sock clients events).cause
          = .connectionReset) := by
  refine ⟨rfl, rfl, fun rest hev => ?_, fun rest hev => ?_⟩
  · subst hev
    exact ⟨by simp [handle_client, serveLoop], by simp [handle_client, serveLoop]⟩
  · subst hev
    simp [handle_client, serveLoop]

/-- Witness for C7: a peer that closes immediately, with the connection
registered as `1` among `[1, 2]`. -/
theorem handle_client_cleanup_witness :
    (handle_client hashStub jlFail (fun i => i) 1 [1, 2] [.chunk ""]).closed = true
    ∧ (handle_client hashStub jlFail (fun i => i) 1 [1, 2] [.chunk ""]).registry
        = ([1, 2] : List Nat).erase 1
    ∧ (handle_client hashStub jlFail (fun i => i) 1 [1, 2] [.chunk ""]).cause
        = .peerClosed :=
  ⟨(handle_client_cleanup hashStub jlFail (fun i => i) 1 [1, 2] [.chunk ""]).1,
   (handle_client_cleanup hashStub jlFail (fun i => i) 1 [1, 2] [.chunk ""]).2.1,
   ((handle_client_cleanup hashStub jlFail (fun i => i) 1 [1, 2]
      [.chunk ""]).2.2.1 [] rfl).1⟩

/-- The read/dispatch/send loop answers a trace of nonempty messages
followed by a peer close with exactly the dispatcher's outputs, in
order. -/
theorem serveLoop_ordered (sha : String → String)
    (jl : String → Option JVal) :
    ∀ (msgs : List String) (rs : List Response) (clock : Nat → Nat),
      (∀ m ∈ msgs, m ≠ "") → rs.length = msgs.length →
      (∀ i (h1 : i < msgs.length) (h2 : i < rs.length),
        process_request sha jl (msgs.get ⟨i, h1⟩) (clock i) = .ok (rs.get ⟨i, h2⟩)) →
      serveLoop sha jl clock (msgs.map NetEvent.chunk ++ [NetEvent.chunk ""])
        = (rs, .peerClosed)
  | [], rs, clock, _, hlen, _ => by
      have hrs : rs = [] := List.length_eq_zero.mp (by simpa using hlen)
      subst hrs
      simp [serveLoop]
  | m :: ms, rs, clock, hne, hlen, hok => by
      cases rs with
      | nil => simp at hlen
      | cons r rs' =>
        have hm : m ≠ "" := hne m (List.mem_cons_self m ms)
        have h0 : process_request sha jl m (clock 0) = .ok r := by
          have := hok 0 (by simp) (by simp)
          simpa using this
        have ih := serveLoop_ordered sha jl ms rs' (fun i => clock (i + 1))
          (fun x hx => hne x (List.mem_cons_of_mem m hx))
          (by simpa using hlen)
          (fun i h1 h2 => by
            have := hok (i + 1) (by simpa using h1) (by simpa using h2)
            simpa using this)
        simp only [List.map_cons, List.cons_append, serveLoop]
        rw [if_neg hm, h0]
        simp only [List.append_eq, ih]

/-- **C8.** Within one connection, each message gets exactly one response
and in order: for a trace of `n` nonempty messages followed by a clean
close, the list of responses written back is exactly the dispatcher's
output on the 1st, 2nd, …, n-th message, and the loop then ends
cleanly. -/
theorem responses_in_order (sha : String → String)
    (jl : String → Option JVal) (clock : Nat → Nat) (sock : Nat)
    (clients : List Nat) (msgs : List String) (rs : List Response)
    (hne : ∀ m ∈ msgs, m ≠ "")
    (hlen : rs.length = msgs.length)
    (hok : ∀ i (h1 : i < msgs.length) (h2 : i < rs.length),
      process_request sha jl (msgs.get ⟨i, h1⟩) (clock i) = .ok (rs.get ⟨i, h2⟩)) :
    (handle_client sha jl clock sock clients
        (msgs.map NetEvent.chunk ++ [NetEvent.chunk ""])).sent = rs
    ∧ (handle_client sha jl clock sock clients
        (msgs.map NetEvent.chunk ++ [NetEvent.chunk ""])).cause = .peerClosed := by
  have h := serveLoop_ordered sha jl msgs rs clock hne hlen hok
  constructor
  · show (serveLoop sha jl clock (msgs.map NetEvent.chunk ++ [NetEvent.chunk ""])).1 = rs
    rw [h]
  · show (serveLoop sha jl clock (msgs.map NetEvent.chunk ++ [NetEvent.chunk ""])).2
        = .peerClosed
    rw [h]

/-- Witness for C8: two non-JSON messages `"a"`, `"b"` answered by their
two best-effort echoes, in order. -/
theorem responses_in_order_witness :
    (handle_client hashStub jlFail (fun i => i) 0 []
        (["a", "b"].map NetEvent.chunk ++ [NetEvent.chunk ""])).sent
      = [.echo ("Echo: " ++ "a") 0, .echo ("Echo: " ++ "b") 1] :=
  (responses_in_order hashStub jlFail (fun i => i) 0 [] ["a", "b"]
    [.echo ("Echo: " ++ "a") 0, .echo ("Echo: " ++ "b") 1]
    (by
      intro m hm
      simp only [List.mem_cons, List.not_mem_nil, or_false] at hm
      rcases hm with rfl | rfl <;> decide)
    rfl
    (fun i h1 h2 => by
      match i, h1 with
      | 0, _ => rfl
      | 1, _ => rfl)).1
